import Mathlib

/-!
Shallow embedding of the cc-launcher "Session Identity & Platform Resolution"
subsystem, translated from `src/cc_launcher/detector/platform.py`
(class `PlatformDetector`) and `src/cc_launcher/core/session_mapper.py`
(class `SessionMapper`).

Modelling conventions:
* Python dicts are embedded as insertion-ordered association lists
  `List (String × α)`; `d.get(k)` is `lookupA`, `d[k] = v` is `dinsert`
  (update-in-place for an existing key, append for a new one, exactly the
  Python dict ordering semantics), `del d[k]` is a key filter.
* ISO-8601 timestamp strings produced by `datetime.now().isoformat()` are
  embedded as abstract integer instants (`Int`); within one process all such
  strings have the same format, so their string order is their chronological
  order, and `datetime.now()` becomes an explicit `now` parameter.
* The several `datetime.now()` calls inside one Python method are modelled as
  the single instant `now` of that call.
* A dict value that may be absent (`last_active` before the first touch,
  the `platform` key written by `get_recent_sessions`) is an `Option`.
* `uuid.uuid4()` draws are explicit string parameters.
* An exception raised inside a `try` body is injected through an explicit
  `fault` flag.  An I/O failure inside `_save_mappings` is a *different*
  path: that method catches its own exceptions and returns `False`, so a
  failed persist never reaches the caller's `except` arm; it is injected
  through a separate `saveFault` flag where the persistence step is
  modelled explicitly (`save_mappings`, `generate_dual_uuids_with_save`).
-/

namespace CCLauncher

/-- Python `d.get(k)` on a dict embedded as an insertion-ordered association
list: the value at the first (unique, for dict-derived lists) matching key. -/
def lookupA {α : Type} (m : List (String × α)) (k : String) : Option α :=
  (m.find? (fun kv => kv.1 == k)).map (fun kv => kv.2)

/-- Python `d[k] = f(d[k])` for a key already present: the entry is updated in
place, every other entry is kept unchanged in its position. -/
def dmodify {α : Type} (m : List (String × α)) (k : String) (f : α → α) :
    List (String × α) :=
  m.map (fun kv => if kv.1 = k then (kv.1, f kv.2) else kv)

/-- Python `d[k] = v`: an existing key is overwritten in place, a new key is
appended at the end (dict insertion order). -/
def dinsert {α : Type} (m : List (String × α)) (k : String) (v : α) :
    List (String × α) :=
  if (lookupA m k).isSome then dmodify m k (fun _ => v) else m ++ [(k, v)]

/-- Python `f"{index:02d}"`: decimal rendering zero-padded to width two. -/
def format02 (n : Nat) : String :=
  if n < 10 then "0" ++ toString n else toString n

/-- Python `sorted` on a list of strings (code-point lexicographic order,
the order of `String.le`). -/
def sortStrings (l : List String) : List String :=
  List.insertionSort (fun a b => a ≤ b) l

/-- Python `s.lower()`: lowercase each character (equal to `String.toLower`,
stated on the character list so that the kernel can evaluate it). -/
def pyLower (s : String) : String := String.mk (s.data.map Char.toLower)

/-! ## Platform registry and `PlatformDetector` (`detector/platform.py`) -/

/-- One platform entry of the platforms config document.  A missing credential
or text field is the empty string (Python falsy), matching the
`platform_config.get(...)` accesses in the source. -/
structure PlatformConfig where
  name : String
  api_base_url : String
  model : String
  api_key : String := ""
  auth_token : String := ""
  login_token : String := ""
  enabled : Bool := false
deriving DecidableEq, Repr

/-- The platforms config document (`platforms.json`): platform table, default
platform id (`""` embeds an absent/falsy value) and alias table. -/
structure PlatformsConfig where
  platforms : List (String × PlatformConfig)
  default_platform : String := ""
  aliases : List (String × String) := []
deriving DecidableEq, Repr

/-- `PlatformDetector._is_platform_available`: enabled, at least one credential
field non-empty, and `name`, `api_base_url`, `model` all non-empty. -/
def is_platform_available (c : PlatformConfig) : Bool :=
  c.enabled &&
  (c.api_key != "" || c.auth_token != "" || c.login_token != "") &&
  (c.name != "" && c.api_base_url != "" && c.model != "")

/-- `PlatformDetector._resolve_platform_alias`: a falsy request resolves to
nothing; otherwise the lowercased token is looked up in the alias table
(falling back to itself) and accepted only if it names a platform entry. -/
def resolve_platform_alias (platform : Option String) (cfg : PlatformsConfig) :
    Option String :=
  match platform with
  | none => none
  | some p =>
    if p = "" then none
    else
      let resolved := (lookupA cfg.aliases (pyLower p)).getD (pyLower p)
      if (lookupA cfg.platforms resolved).isSome then some resolved else none

/-- Step 2 of `PlatformDetector._select_default_platform`: the first entry of
the platform table, in stored order, that passes the availability check. -/
def first_available_platform (cfg : PlatformsConfig) :
    Option (String × PlatformConfig) :=
  cfg.platforms.find? (fun pc => is_platform_available pc.2)

/-- `PlatformDetector._select_default_platform`: the configured default
platform if it exists and is available, otherwise the first available entry in
stored order, otherwise nothing. -/
def select_default_platform (cfg : PlatformsConfig) :
    Option (String × PlatformConfig) :=
  if cfg.default_platform ≠ "" then
    match lookupA cfg.platforms cfg.default_platform with
    | some c =>
      if is_platform_available c then some (cfg.default_platform, c)
      else first_available_platform cfg
    | none => first_available_platform cfg
  else first_available_platform cfg

/-- `PlatformDetector.detect_platform`: resolve the requested token; if it
resolves to a (truthy) platform id, accept it when available and fail when
not; if it does not resolve, fall through to default-platform selection. -/
def detect_platform (cfg : PlatformsConfig) (requested : Option String) :
    Option (String × PlatformConfig) :=
  match resolve_platform_alias requested cfg with
  | some rp =>
    if rp = "" then select_default_platform cfg
    else
      match lookupA cfg.platforms rp with
      | some c => if is_platform_available c then some (rp, c) else none
      | none => none
  | none => select_default_platform cfg

/-! ## `SessionMapper` (`core/session_mapper.py`) -/

/-- `SessionMapper._generate_platform_prefixes`: sort the configured platform
ids, number them from 1 and render each number with `f"{index:02d}"`. -/
def generate_platform_prefixes (platformKeys : List String) :
    List (String × String) :=
  (List.enumFrom 1 (sortStrings platformKeys)).map
    (fun ip => (ip.2, format02 ip.1))

/-- A value of the forward map `mappings` (keyed by the tagged id).  The
source dict field `"prefix"` is named `prefixTag` (`prefix` is a Lean
keyword); `last_active` is absent until the session is touched. -/
structure MappingEntry where
  standard_uuid : String
  platform : String
  created_at : Int
  prefixTag : String
  last_active : Option Int := none
deriving DecidableEq, Repr

/-- A value of the reverse map `reverse_mappings` (keyed by the canonical
id). -/
structure ReverseEntry where
  prefix_uuid : String
  platform : String
  created_at : Int
  prefixTag : String
  last_active : Option Int := none
deriving DecidableEq, Repr

/-- One element of a platform's session list.  The `platform` key does not
exist until `get_recent_sessions` writes it into the record. -/
structure SessionInfo where
  standard_uuid : String
  prefix_uuid : String
  created_at : Int
  last_active : Option Int := none
  platform : Option String := none
deriving DecidableEq, Repr

/-- The session-mapping document (`session-mappings.json`), i.e.
`self.mappings` of `SessionMapper`; bookkeeping-only fields (`created_at`,
`last_updated`, `version`) are omitted. -/
structure Mappings where
  mappings : List (String × MappingEntry)
  reverse_mappings : List (String × ReverseEntry)
  platform_sessions : List (String × List SessionInfo)
deriving DecidableEq, Repr

/-- The freshly initialised store produced by `_load_mappings` when no mapping
file exists. -/
def emptyMappings : Mappings :=
  { mappings := [], reverse_mappings := [], platform_sessions := [] }

/-- The value returned by `generate_dual_uuids`. -/
structure DualResult where
  standard_uuid : String
  prefix_uuid : String
  session_id : String
deriving DecidableEq, Repr

/-- `SessionMapper.generate_dual_uuids`, value and in-memory-state
semantics.  `u` is the `uuid.uuid4()` draw of the `try` body; `fault = true`
models an exception raised inside the `try` block (injected before any
mutation), in which case the `except` arm returns the canonical-only
fallback built from the second draw `fallback_uuid` and the store is
untouched.  On the normal path the platform's ordinal (or `"xx"` when
`pyLower platform` is unknown) replaces the first two characters of `u`,
both maps gain an entry and the platform's session list gains a record.
The `self._save_mappings()` call at the end of the `try` body never affects
this value/state semantics: that method catches its own I/O failures and
returns `False`, a result the source ignores — the persistence step is made
explicit in `generate_dual_uuids_with_save` below. -/
def generate_dual_uuids (prefixes : List (String × String)) (s : Mappings)
    (platform u : String) (now : Int) (fault : Bool) (fallback_uuid : String) :
    DualResult × Mappings :=
  if fault then
    ({ standard_uuid := fallback_uuid, prefix_uuid := fallback_uuid,
       session_id := fallback_uuid }, s)
  else
    let pfx := (lookupA prefixes (pyLower platform)).getD ("xx")
    let prefix_uuid := pfx ++ u.drop 2
    let m1 := dinsert s.mappings prefix_uuid
      { standard_uuid := u, platform := platform, created_at := now,
        prefixTag := pfx }
    let r1 := dinsert s.reverse_mappings u
      { prefix_uuid := prefix_uuid, platform := platform, created_at := now,
        prefixTag := pfx }
    let ps0 := if (lookupA s.platform_sessions platform).isSome then
        s.platform_sessions
      else s.platform_sessions ++ [(platform, [])]
    let info : SessionInfo :=
      { standard_uuid := u, prefix_uuid := prefix_uuid, created_at := now,
        last_active := some now }
    let ps1 := dmodify ps0 platform (fun l => l ++ [info])
    ({ standard_uuid := u, prefix_uuid := prefix_uuid,
       session_id := prefix_uuid },
     { mappings := m1, reverse_mappings := r1, platform_sessions := ps1 })

/-- `SessionMapper._save_mappings`: serializes the whole document to disk;
any failure is caught *inside* this method, which logs it and returns
`False` while the in-memory store keeps its mutations.  `saveFault = true`
models such a disk failure, so the call returns `True` exactly when no
fault occurs and never raises to its caller. -/
def save_mappings (saveFault : Bool) : Bool := !saveFault

/-- `SessionMapper.generate_dual_uuids` with the persistence step explicit:
the full method is the normal-path mutation of `generate_dual_uuids`
followed by the `self._save_mappings()` call, whose boolean result the
source *ignores*.  A save failure is swallowed inside `_save_mappings` and
never reaches the `except` arm, so the method still returns the normal dual
result (tagged id = ordinal followed by the canonical id from position 2)
over the mutated in-memory store; only an exception raised elsewhere in the
`try` body (`fault = true`) produces the canonical-only fallback.  The
third component is `_save_mappings`' return value (`false` on the `except`
path, where no successful persist happened). -/
def generate_dual_uuids_with_save (prefixes : List (String × String))
    (s : Mappings) (platform u : String) (now : Int) (fault saveFault : Bool)
    (fallback_uuid : String) : DualResult × Mappings × Bool :=
  if fault then
    ({ standard_uuid := fallback_uuid, prefix_uuid := fallback_uuid,
       session_id := fallback_uuid }, s, false)
  else
    let r := generate_dual_uuids prefixes s platform u now false fallback_uuid
    (r.1, r.2, save_mappings saveFault)

/-- The string the heuristic arm of `get_platform_from_session` compares with
the ordinal table: `session_id.split("-")[0]` when the id contains a dash,
else `session_id[:2]`. -/
def prefixPart (session_id : String) : String :=
  if session_id.data.contains ('-') then
    String.mk (session_id.data.takeWhile (fun c => c != '-'))
  else session_id.take 2

/-- `SessionMapper.get_platform_from_session`: forward map first, then reverse
map, then the prefix-inference heuristic over the ordinal table (first table
entry, in insertion order, whose ordinal equals `prefixPart session_id`). -/
def get_platform_from_session (prefixes : List (String × String))
    (s : Mappings) (session_id : String) : Option String :=
  match lookupA s.mappings session_id with
  | some e => some e.platform
  | none =>
    match lookupA s.reverse_mappings session_id with
    | some e => some e.platform
    | none =>
      (prefixes.find? (fun kp => kp.2 == prefixPart session_id)).map
        (fun kp => kp.1)

/-- `SessionMapper.get_standard_uuid`: a forward-map key is translated to its
canonical id; a reverse-map key is already canonical and returned as is. -/
def get_standard_uuid (s : Mappings) (session_id : String) : Option String :=
  match lookupA s.mappings session_id with
  | some e => some e.standard_uuid
  | none =>
    if (lookupA s.reverse_mappings session_id).isSome then some session_id
    else none

/-- `SessionMapper.get_prefix_uuid`: the tagged id stored in the reverse-map
entry of a canonical id. -/
def get_prefix_uuid (s : Mappings) (standard_uuid : String) : Option String :=
  (lookupA s.reverse_mappings standard_uuid).map (fun e => e.prefix_uuid)

/-- The first list record whose `standard_uuid` matches gets
`last_active := now`; the loop in `update_session_activity` breaks after the
first match. -/
def touchFirst (now : Int) (standard : String) :
    List SessionInfo → List SessionInfo
  | [] => []
  | r :: rs =>
    if r.standard_uuid = standard then { r with last_active := some now } :: rs
    else r :: touchFirst now standard rs

/-- Result of `update_session_activity`: the store after the call, the boolean
the method returns, and whether `_save_mappings` was invoked. -/
structure UpdateResult where
  state : Mappings
  ok : Bool
  saved : Bool
deriving DecidableEq, Repr

/-- `SessionMapper.update_session_activity`: resolve the platform and the
canonical id (failing with `False` and no store change if either resolution
fails), then set `last_active` on the forward entry keyed by `session_id` (if
that key exists), on the reverse entry keyed by the canonical id (if that key
exists) and on the first matching record of the platform's session list, and
persist. -/
def update_session_activity (prefixes : List (String × String)) (s : Mappings)
    (session_id : String) (now : Int) : UpdateResult :=
  match get_platform_from_session prefixes s session_id with
  | none => { state := s, ok := false, saved := false }
  | some platform =>
    match get_standard_uuid s session_id with
    | none => { state := s, ok := false, saved := false }
    | some standard =>
      let m1 := if (lookupA s.mappings session_id).isSome then
          dmodify s.mappings session_id
            (fun e => { e with last_active := some now })
        else s.mappings
      let r1 := if (lookupA s.reverse_mappings standard).isSome then
          dmodify s.reverse_mappings standard
            (fun e => { e with last_active := some now })
        else s.reverse_mappings
      let ps1 := if (lookupA s.platform_sessions platform).isSome then
          dmodify s.platform_sessions platform (touchFirst now standard)
        else s.platform_sessions
      { state := { mappings := m1, reverse_mappings := r1,
                   platform_sessions := ps1 },
        ok := true, saved := true }

/-- The sort key of the session listings:
`x.get("last_active", x.get("created_at", ""))`. -/
def effTime (last_active : Option Int) (created_at : Int) : Int :=
  last_active.getD created_at

/-- `SessionMapper.get_recent_sessions`: the loop writes
`session_info["platform"] = platform` into every record of every platform's
session list (the records are shared, not copied, so the store itself is
mutated — returned here as the new state), then returns the records sorted by
`effTime` descending, capped at `limit`. -/
def get_recent_sessions (s : Mappings) (limit : Nat) :
    Mappings × List SessionInfo :=
  let ps1 := s.platform_sessions.map
    (fun pl => (pl.1, pl.2.map (fun r => { r with platform := some pl.1 })))
  let all := (ps1.map (fun pl => pl.2)).flatten
  let sortedSessions := List.insertionSort
    (fun a b =>
      effTime b.last_active b.created_at ≤ effTime a.last_active a.created_at)
    all
  ({ s with platform_sessions := ps1 }, sortedSessions.take limit)

/-- One day of the abstract clock; `timedelta(days=days)` is `days * dayUnit`. -/
def dayUnit : Int := 86400000000

/-- `datetime.now() - timedelta(days=days)` rendered on the abstract clock. -/
def cleanupCutoff (now : Int) (days : Nat) : Int :=
  now - (days : Int) * dayUnit

/-- Result of `cleanup_old_sessions`: the store after the call, the count the
method returns, and whether `_save_mappings` was invoked (only when the count
is positive). -/
structure CleanupResult where
  state : Mappings
  count : Nat
  saved : Bool
deriving DecidableEq, Repr

/-- `SessionMapper.cleanup_old_sessions`: every platform session list keeps
the records with `effTime ≥ cutoff` (platforms whose list becomes empty are
deleted); the count is the total number of list records dropped; every
forward entry with `effTime < cutoff` is removed together with the reverse
entry keyed by its `standard_uuid`; the store is persisted when the count is
positive. -/
def cleanup_old_sessions (s : Mappings) (now : Int) (days : Nat) :
    CleanupResult :=
  let cutoff := cleanupCutoff now days
  let keepRec : SessionInfo → Bool := fun r =>
    cutoff ≤ effTime r.last_active r.created_at
  let filtered := s.platform_sessions.map
    (fun pl => (pl.1, pl.2.filter keepRec))
  let cleaned := (s.platform_sessions.map
    (fun pl => pl.2.length - (pl.2.filter keepRec).length)).sum
  let ps1 := filtered.filter (fun pl => !pl.2.isEmpty)
  let keepMap : MappingEntry → Bool := fun e =>
    cutoff ≤ effTime e.last_active e.created_at
  let removed := s.mappings.filter (fun kv => !keepMap kv.2)
  let r1 := s.reverse_mappings.filter
    (fun kv => !(removed.any (fun tv => tv.2.standard_uuid == kv.1)))
  let m1 := s.mappings.filter (fun kv => keepMap kv.2)
  { state := { mappings := m1, reverse_mappings := r1,
               platform_sessions := ps1 },
    count := cleaned, saved := decide (0 < cleaned) }

/-- The bidirectional-mapping invariant the mapper's own writes maintain:
every reverse entry points at a forward entry that points back at it.  It
holds for the empty store and is established for each id pair written by
`generate_dual_uuids`. -/
def WellFormed (s : Mappings) : Prop :=
  ∀ X e, lookupA s.reverse_mappings X = some e →
    ∃ e', lookupA s.mappings e.prefix_uuid = some e' ∧ e'.standard_uuid = X

/-! ## Elementary association-list lemmas -/

theorem lookupA_nil {α : Type} (k : String) :
    lookupA ([] : List (String × α)) k = none := rfl

theorem lookupA_cons {α : Type} (kv : String × α) (m : List (String × α))
    (k : String) :
    lookupA (kv :: m) k = if kv.1 = k then some kv.2 else lookupA m k := by
  by_cases h : kv.1 = k
  · simp [lookupA, h]
  · simp [lookupA, h]

theorem lookupA_eq_none_iff {α : Type} (m : List (String × α)) (k : String) :
    lookupA m k = none ↔ ∀ kv ∈ m, kv.1 ≠ k := by
  simp [lookupA, List.find?_eq_none, Option.map_eq_none']

theorem lookupA_mapVal {α β : Type} (m : List (String × α))
    (f : String → α → β) (k : String) :
    lookupA (m.map (fun kv => (kv.1, f kv.1 kv.2))) k
      = (lookupA m k).map (f k) := by
  induction m with
  | nil => rfl
  | cons kv rest ih =>
    by_cases h : kv.1 = k
    · simp [lookupA_cons, h]
    · simp only [List.map_cons, lookupA_cons, h, if_false, if_neg h]
      exact ih

theorem lookupA_dmodify_self {α : Type} (m : List (String × α)) (k : String)
    (f : α → α) : lookupA (dmodify m k f) k = (lookupA m k).map f := by
  induction m with
  | nil => rfl
  | cons kv rest ih =>
    unfold dmodify at ih ⊢
    rw [List.map_cons]
    by_cases h : kv.1 = k
    · rw [if_pos h, lookupA_cons, lookupA_cons]
      simp [h]
    · rw [if_neg h, lookupA_cons, lookupA_cons, if_neg h, if_neg h]
      exact ih

theorem lookupA_cons2 {α : Type} (k0 : String) (v0 : α) (m : List (String × α))
    (k : String) :
    lookupA ((k0, v0) :: m) k = if k0 = k then some v0 else lookupA m k :=
  lookupA_cons (k0, v0) m k

theorem lookupA_append_of_none {α : Type} (m1 m2 : List (String × α))
    (k : String) (h : lookupA m1 k = none) :
    lookupA (m1 ++ m2) k = lookupA m2 k := by
  induction m1 with
  | nil => rfl
  | cons kv rest ih =>
    rw [lookupA_cons] at h
    rw [List.cons_append, lookupA_cons]
    by_cases hk : kv.1 = k
    · rw [if_pos hk] at h
      cases h
    · rw [if_neg hk] at h
      rw [if_neg hk]
      exact ih h

theorem lookupA_dmodify_ne {α : Type} (m : List (String × α)) (k k' : String)
    (f : α → α) (h : k' ≠ k) :
    lookupA (dmodify m k f) k' = lookupA m k' := by
  induction m with
  | nil => rfl
  | cons kv rest ih =>
    unfold dmodify at ih ⊢
    rw [List.map_cons]
    by_cases hk : kv.1 = k
    · have hne : ¬ kv.1 = k' := by rw [hk]; exact fun hc => h hc.symm
      rw [if_pos hk, lookupA_cons, lookupA_cons]
      simp only [hne, if_false, if_neg hne]
      exact ih
    · rw [if_neg hk, lookupA_cons, lookupA_cons]
      by_cases hk' : kv.1 = k'
      · simp [hk']
      · simp only [hk', if_false, if_neg hk']
        exact ih

theorem lookupA_dinsert_self {α : Type} (m : List (String × α)) (k : String)
    (v : α) : lookupA (dinsert m k v) k = some v := by
  unfold dinsert
  by_cases h : (lookupA m k).isSome
  · rw [if_pos h, lookupA_dmodify_self]
    rcases Option.isSome_iff_exists.mp h with ⟨a, ha⟩
    rw [ha]
    rfl
  · rw [if_neg h]
    have hnone : lookupA m k = none := Option.not_isSome_iff_eq_none.mp h
    rw [lookupA_append_of_none m ([(k, v)]) k hnone, lookupA_cons2,
      if_pos rfl]

/-! ## Claim C1 — explicit platform request that cannot be honored -/

/-- An available platform profile used by concrete registries below. -/
def alphaCfg : PlatformConfig :=
  { name := "Alpha", api_base_url := "https://alpha.example", model := "m1",
    api_key := "k1", enabled := true }

/-- A disabled platform profile used by concrete registries below. -/
def betaCfg : PlatformConfig :=
  { name := "Beta", api_base_url := "https://beta.example", model := "m2",
    api_key := "k2", enabled := false }

/-- Registry of the C1 counterexample: one available platform `alpha`, no
aliases, no default platform. -/
def cfgC1 : PlatformsConfig :=
  { platforms := [(("alpha"), alphaCfg)], default_platform := "",
    aliases := [] }

/-- Claim C1, counterexample: the token `"zzz"` is non-empty and, after
lowercasing and alias resolution, names no profile of the registry `cfgC1`;
the claim demands that `detect_platform` return `none`, but the code falls
through to default-platform selection and returns the available platform
`alpha`. -/
theorem C1_counterexample :
    detect_platform cfgC1 (some ("zzz")) = some (("alpha"), alphaCfg) ∧
    ("zzz" : String) ≠ "" ∧
    lookupA cfgC1.aliases (pyLower ("zzz")) = none ∧
    lookupA cfgC1.platforms (pyLower ("zzz")) = none := by
  refine ⟨by decide, by decide, by decide, by decide⟩

/-- Claim C1 (amended): for a non-empty requested token, if lowercasing and
alias resolution produce a (truthy) id that names a registry profile failing
the availability check, `detect_platform` returns `none` with no fallback;
but if the token resolves to no registry profile at all, `detect_platform`
falls through to the default-platform selection chain instead of failing. -/
theorem C1_amended (cfg : PlatformsConfig) (p : String) (hp : p ≠ "") :
    (∀ rp c, resolve_platform_alias (some p) cfg = some rp → rp ≠ "" →
      lookupA cfg.platforms rp = some c → is_platform_available c = false →
      detect_platform cfg (some p) = none) ∧
    (resolve_platform_alias (some p) cfg = none →
      detect_platform cfg (some p) = select_default_platform cfg) := by
  constructor
  · intro rp c hres hrp hc hav
    unfold detect_platform
    rw [hres]
    simp [hrp, hc, hav]
  · intro hres
    unfold detect_platform
    rw [hres]

/-- Registry for the C1 witness: `beta` is present but disabled, `alpha` is
available and would be the fallback. -/
def cfgC1w : PlatformsConfig :=
  { platforms := [(("beta"), betaCfg), (("alpha"), alphaCfg)],
    default_platform := "", aliases := [] }

/-- Witness for `C1_amended` at the registry `cfgC1w`: requesting the
disabled platform `beta` yields `none`; requesting the unresolvable token
`nope` yields exactly the default-selection result. -/
theorem C1_amended_witness :
    detect_platform cfgC1w (some ("beta")) = none ∧
    detect_platform cfgC1w (some ("nope")) = select_default_platform cfgC1w := by
  refine ⟨?_, ?_⟩
  · exact (C1_amended cfgC1w ("beta") (by decide)).1 ("beta") betaCfg
      (by decide) (by decide) (by decide) (by decide)
  · exact (C1_amended cfgC1w ("nope") (by decide)).2 (by decide)

/-! ## The ordinal table: supporting lemmas -/

theorem lookupA_enumFrom_format02 (l : List String) (n : Nat) (p : String)
    (hp : p ∈ l) :
    lookupA ((List.enumFrom n l).map (fun ip => (ip.2, format02 ip.1))) p
      = some (format02 (n + List.indexOf p l)) := by
  induction l generalizing n with
  | nil => cases hp
  | cons x xs ih =>
    rw [List.enumFrom_cons, List.map_cons]
    by_cases h : x = p
    · subst h
      simp [lookupA_cons, List.indexOf_cons_self]
    · have hp' : p ∈ xs := by
        rcases List.mem_cons.mp hp with h1 | h2
        · exact absurd h1.symm h
        · exact h2
      rw [lookupA_cons]
      simp only [h, if_false]
      rw [ih (n + 1) hp', List.indexOf_cons_ne xs h]
      have harith : n + 1 + List.indexOf p xs = n + (List.indexOf p xs).succ := by
        omega
      rw [harith]

theorem lookupA_generate_platform_prefixes_some (keys : List String)
    (x v : String)
    (h : lookupA (generate_platform_prefixes keys) x = some v) :
    ∃ i, 1 ≤ i ∧ i ≤ keys.length ∧ v = format02 i := by
  unfold generate_platform_prefixes lookupA at h
  rcases Option.map_eq_some'.mp h with ⟨kv, hfind, hv⟩
  have hmem := List.mem_of_find?_eq_some hfind
  rcases List.mem_map.mp hmem with ⟨ip, hip, hkv⟩
  rcases ip with ⟨i, y⟩
  have hb := List.mem_enumFrom hip
  have hlen : (sortStrings keys).length = keys.length :=
    (List.perm_insertionSort _ keys).length_eq
  refine ⟨i, hb.1, by omega, ?_⟩
  rw [← hv, ← hkv]

theorem lookupA_generate_platform_prefixes_none (keys : List String)
    (x : String) (hx : x ∉ keys) :
    lookupA (generate_platform_prefixes keys) x = none := by
  rw [lookupA_eq_none_iff]
  intro kv hkv
  unfold generate_platform_prefixes at hkv
  rcases List.mem_map.mp hkv with ⟨ip, hip, rfl⟩
  intro hcontra
  apply hx
  have hsnd : ip.2 ∈ sortStrings keys := by
    have hmap := List.enumFrom_map_snd 1 (sortStrings keys)
    rw [← hmap]
    exact List.mem_map_of_mem Prod.snd hip
  have h2 : ip.2 ∈ keys := (List.perm_insertionSort _ keys).mem_iff.mp hsnd
  exact hcontra ▸ h2

theorem format02_length (n : Nat) (h1 : 1 ≤ n) (h2 : n ≤ 99) :
    (format02 n).length = 2 := by
  unfold format02
  interval_cases n <;> rfl

theorem ordinal_length (keys : List String) (hk : keys.length ≤ 99)
    (x : String) :
    ((lookupA (generate_platform_prefixes keys) x).getD ("xx")).length = 2 := by
  cases hcase : lookupA (generate_platform_prefixes keys) x with
  | none => rfl
  | some v =>
    rcases lookupA_generate_platform_prefixes_some keys x v hcase with
      ⟨i, h1, h2, rfl⟩
    simpa using format02_length i h1 (le_trans h2 hk)

/-! ## Claim C2 — tagged and canonical id differ only in the first byte -/

/-- Claim C2: every session produced by a successful (non-fault) call of
`generate_dual_uuids` over a registry of at most 99 platforms (so every
ordinal, including `"xx"`, is two characters wide) and a canonical uuid of
the standard 36-character form has a tagged id of the same length that is
character-for-character identical to the canonical id from position 2
onward — the two ids differ at most in their first two hex characters (one
byte). -/
theorem C2_dual_ids_differ_only_in_first_byte (keys : List String)
    (s : Mappings) (platform u : String) (now : Int) (fb : String)
    (hk : keys.length ≤ 99) (hu : u.length = 36) :
    ((generate_dual_uuids (generate_platform_prefixes keys) s platform u now
        false fb).1).standard_uuid = u ∧
    ((generate_dual_uuids (generate_platform_prefixes keys) s platform u now
        false fb).1).prefix_uuid.length = u.length ∧
    ((generate_dual_uuids (generate_platform_prefixes keys) s platform u now
        false fb).1).prefix_uuid.data.drop 2 = u.data.drop 2 := by
  have hred : ((generate_dual_uuids (generate_platform_prefixes keys) s
      platform u now false fb).1).prefix_uuid
      = ((lookupA (generate_platform_prefixes keys) (pyLower platform)).getD
          ("xx")) ++ u.drop 2 := rfl
  have hpfx : ((lookupA (generate_platform_prefixes keys)
      (pyLower platform)).getD ("xx")).length = 2 :=
    ordinal_length keys hk (pyLower platform)
  refine ⟨rfl, ?_, ?_⟩
  · rw [hred, String.length_append]
    have hdl : (u.drop 2).length = u.length - 2 := by
      show (u.drop 2).data.length = u.data.length - 2
      rw [String.data_drop]
      exact List.length_drop 2 u.data
    omega
  · rw [hred]
    have hdata : (((lookupA (generate_platform_prefixes keys)
        (pyLower platform)).getD ("xx")) ++ u.drop 2).data
        = ((lookupA (generate_platform_prefixes keys)
            (pyLower platform)).getD ("xx")).data ++ u.data.drop 2 := by
      rw [String.data_append, String.data_drop]
    rw [hdata]
    have hl : ((lookupA (generate_platform_prefixes keys)
        (pyLower platform)).getD ("xx")).data.length = 2 := hpfx
    rw [← hl, List.drop_left]

/-- Witness for `C2_dual_ids_differ_only_in_first_byte` at a one-platform
registry and a concrete uuid. -/
theorem C2_witness :
    (["alpha"] : List String).length ≤ 99 ∧
    ("aabbccdd-0000-4000-8000-000000000000" : String).length = 36 ∧
    (((generate_dual_uuids (generate_platform_prefixes (["alpha"]))
        emptyMappings ("alpha") ("aabbccdd-0000-4000-8000-000000000000") 0
        false ("fb")).1).standard_uuid
        = "aabbccdd-0000-4000-8000-000000000000" ∧
      ((generate_dual_uuids (generate_platform_prefixes (["alpha"]))
        emptyMappings ("alpha") ("aabbccdd-0000-4000-8000-000000000000") 0
        false ("fb")).1).prefix_uuid.length
        = ("aabbccdd-0000-4000-8000-000000000000" : String).length ∧
      ((generate_dual_uuids (generate_platform_prefixes (["alpha"]))
        emptyMappings ("alpha") ("aabbccdd-0000-4000-8000-000000000000") 0
        false ("fb")).1).prefix_uuid.data.drop 2
        = ("aabbccdd-0000-4000-8000-000000000000" : String).data.drop 2) :=
  ⟨by decide, by decide,
    C2_dual_ids_differ_only_in_first_byte (["alpha"]) emptyMappings ("alpha")
      ("aabbccdd-0000-4000-8000-000000000000") 0 ("fb") (by decide)
      (by decide)⟩

/-! ## Claim C3 — ordinal assignment and the `"xx"` fallback -/

/-- Claim C3, counterexample: `"ALPHA"` is not a platform id of the registry
`["alpha"]`, so the claim demands the ordinal string `"xx"`; but
`generate_dual_uuids` lowercases its argument before the table lookup and
uses `alpha`'s ordinal `"01"` instead. -/
theorem C3_counterexample :
    ("ALPHA" : String) ∉ (["alpha"] : List String) ∧
    ((generate_dual_uuids (generate_platform_prefixes (["alpha"]))
        emptyMappings ("ALPHA") ("aabbccdd-0000-4000-8000-000000000000") 0
        false ("fb")).1).prefix_uuid
      = "01bbccdd-0000-4000-8000-000000000000" := by
  refine ⟨by decide, by decide⟩

/-- Claim C3 (amended): over any registry snapshot, the ordinal table maps
each configured platform id to its 1-based rank in the alphabetical sort of
all configured platform ids, rendered with `f"{index:02d}"` (exactly two
decimal digits whenever at most 99 platforms are configured); the table is a
deterministic function of the snapshot, so independent recomputations agree;
and `generate_dual_uuids` uses the ordinal string `"xx"` exactly for the
arguments whose *lowercased* form is not a configured platform id (the code
lowercases the argument before the lookup, so a case-variant of a configured
id receives that platform's ordinal rather than `"xx"`). -/
theorem C3_amended (keys : List String) :
    List.Sorted (fun a b => a ≤ b) (sortStrings keys) ∧
    (sortStrings keys).Perm keys ∧
    (∀ p, p ∈ keys → lookupA (generate_platform_prefixes keys) p
        = some (format02 (List.indexOf p (sortStrings keys) + 1))) ∧
    (keys.length ≤ 99 → ∀ p v,
      lookupA (generate_platform_prefixes keys) p = some v → v.length = 2) ∧
    (∀ s platform u now fb, pyLower platform ∉ keys →
      ((generate_dual_uuids (generate_platform_prefixes keys) s platform u now
          false fb).1).prefix_uuid = "xx" ++ u.drop 2) ∧
    (∀ keys2, keys = keys2 →
      generate_platform_prefixes keys = generate_platform_prefixes keys2) := by
  refine ⟨List.sorted_insertionSort _ keys,
    List.perm_insertionSort _ keys, ?_, ?_, ?_, ?_⟩
  · intro p hp
    have hp' : p ∈ sortStrings keys :=
      (List.perm_insertionSort _ keys).mem_iff.mpr hp
    have := lookupA_enumFrom_format02 (sortStrings keys) 1 p hp'
    unfold generate_platform_prefixes
    rw [this, Nat.add_comm]
  · intro hk p v hv
    rcases lookupA_generate_platform_prefixes_some keys p v hv with
      ⟨i, h1, h2, rfl⟩
    exact format02_length i h1 (le_trans h2 hk)
  · intro s platform u now fb hnot
    have hn := lookupA_generate_platform_prefixes_none keys (pyLower platform)
      hnot
    show ((lookupA (generate_platform_prefixes keys) (pyLower platform)).getD
        ("xx")) ++ u.drop 2 = "xx" ++ u.drop 2
    rw [hn]
    rfl
  · intro keys2 h
    rw [h]

/-- Witness for `C3_amended` at the registry `["beta", "alpha"]`: the rank
lookup for `beta` and the `"xx"` arm for the unknown platform `zeta`. -/
theorem C3_amended_witness :
    lookupA (generate_platform_prefixes (["beta", "alpha"])) ("beta")
      = some (format02 (List.indexOf ("beta")
          (sortStrings (["beta", "alpha"])) + 1)) ∧
    ((generate_dual_uuids (generate_platform_prefixes (["beta", "alpha"]))
        emptyMappings ("zeta") ("aabbccdd-0000-4000-8000-000000000000") 0
        false ("fb")).1).prefix_uuid
      = "xx" ++ ("aabbccdd-0000-4000-8000-000000000000" : String).drop 2 :=
  ⟨(C3_amended (["beta", "alpha"])).2.2.1 ("beta") (by decide),
   (C3_amended (["beta", "alpha"])).2.2.2.2.1 emptyMappings ("zeta")
     ("aabbccdd-0000-4000-8000-000000000000") 0 ("fb") (by decide)⟩

/-! ## Concrete one-session store shared by several scenarios -/

/-- The canonical id of the concrete scenario sessions. -/
def uC4 : String := "aabbccdd-0000-4000-8000-000000000000"

/-- The tagged id of the concrete scenario sessions (`alpha`'s ordinal `01`
in place of the first two characters of `uC4`). -/
def tC4 : String := "01bbccdd-0000-4000-8000-000000000000"

/-- A store holding exactly one `alpha` session, generated by the mapper at
instant 0 from the empty store. -/
def sC4 : Mappings :=
  (generate_dual_uuids (generate_platform_prefixes (["alpha"])) emptyMappings
    ("alpha") uC4 0 false uC4).2

/-! ## Claim C4 — consistency of the three `last_active` locations -/

/-- Claim C4, counterexample: touching the session of `sC4` by its
*canonical* id at instant 5 reports success and updates `last_active` in the
reverse map and in the platform session list, but leaves the forward-map
entry with no `last_active` at all — the call updates only some of the three
locations yet does not report failure. -/
theorem C4_counterexample :
    (update_session_activity (generate_platform_prefixes (["alpha"])) sC4 uC4
        5).ok = true ∧
    (lookupA (update_session_activity (generate_platform_prefixes (["alpha"]))
        sC4 uC4 5).state.reverse_mappings uC4).map
      (fun e => e.last_active) = some (some 5) ∧
    (lookupA (update_session_activity (generate_platform_prefixes (["alpha"]))
        sC4 uC4 5).state.platform_sessions ("alpha")).map
      (fun l => l.map (fun r => r.last_active)) = some ([some 5]) ∧
    (lookupA (update_session_activity (generate_platform_prefixes (["alpha"]))
        sC4 uC4 5).state.mappings tC4).map
      (fun e => e.last_active) = some none := by
  refine ⟨by decide, by decide, by decide, by decide⟩

/-- Claim C4 (amended): when `update_session_activity` is called with the
*tagged* id it reports success and writes `last_active := now` into all three
locations (the forward entry, the reverse entry of its canonical id when
present, and the first matching session-list record); but when called with
the *canonical* id it reports success while updating only the reverse entry
and the session-list record, leaving the forward map entirely unchanged. -/
theorem C4_amended (prefixes : List (String × String)) (s : Mappings)
    (sid : String) (now : Int) :
    (∀ e, lookupA s.mappings sid = some e →
      (update_session_activity prefixes s sid now).ok = true ∧
      lookupA (update_session_activity prefixes s sid now).state.mappings sid
        = some { e with last_active := some now } ∧
      (∀ er, lookupA s.reverse_mappings e.standard_uuid = some er →
        lookupA (update_session_activity prefixes s sid
            now).state.reverse_mappings e.standard_uuid
          = some { er with last_active := some now }) ∧
      (∀ l, lookupA s.platform_sessions e.platform = some l →
        lookupA (update_session_activity prefixes s sid
            now).state.platform_sessions e.platform
          = some (touchFirst now e.standard_uuid l))) ∧
    (∀ e, lookupA s.mappings sid = none →
      lookupA s.reverse_mappings sid = some e →
      (update_session_activity prefixes s sid now).ok = true ∧
      (update_session_activity prefixes s sid now).state.mappings
        = s.mappings ∧
      lookupA (update_session_activity prefixes s sid
          now).state.reverse_mappings sid
        = some { e with last_active := some now } ∧
      (∀ l, lookupA s.platform_sessions e.platform = some l →
        lookupA (update_session_activity prefixes s sid
            now).state.platform_sessions e.platform
          = some (touchFirst now sid l))) := by
  constructor
  · intro e he
    have hplat : get_platform_from_session prefixes s sid = some e.platform := by
      unfold get_platform_from_session
      rw [he]
    have hstd : get_standard_uuid s sid = some e.standard_uuid := by
      unfold get_standard_uuid
      rw [he]
    unfold update_session_activity
    rw [hplat, hstd]
    refine ⟨rfl, ?_, ?_, ?_⟩
    · show lookupA (if (lookupA s.mappings sid).isSome then
          dmodify s.mappings sid (fun e => { e with last_active := some now })
        else s.mappings) sid = some { e with last_active := some now }
      rw [he]
      show lookupA (dmodify s.mappings sid
        (fun e => { e with last_active := some now })) sid = _
      rw [lookupA_dmodify_self, he]
      rfl
    · intro er her
      show lookupA (if (lookupA s.reverse_mappings e.standard_uuid).isSome then
          dmodify s.reverse_mappings e.standard_uuid
            (fun e => { e with last_active := some now })
        else s.reverse_mappings) e.standard_uuid
        = some { er with last_active := some now }
      rw [her]
      show lookupA (dmodify s.reverse_mappings e.standard_uuid
        (fun e => { e with last_active := some now })) e.standard_uuid = _
      rw [lookupA_dmodify_self, her]
      rfl
    · intro l hl
      show lookupA (if (lookupA s.platform_sessions e.platform).isSome then
          dmodify s.platform_sessions e.platform
            (touchFirst now e.standard_uuid)
        else s.platform_sessions) e.platform
        = some (touchFirst now e.standard_uuid l)
      rw [hl]
      show lookupA (dmodify s.platform_sessions e.platform
        (touchFirst now e.standard_uuid)) e.platform = _
      rw [lookupA_dmodify_self, hl]
      rfl
  · intro e he her
    have hplat : get_platform_from_session prefixes s sid = some e.platform := by
      unfold get_platform_from_session
      rw [he, her]
    have hstd : get_standard_uuid s sid = some sid := by
      unfold get_standard_uuid
      rw [he, her]
      rfl
    unfold update_session_activity
    rw [hplat, hstd]
    refine ⟨rfl, ?_, ?_, ?_⟩
    · show (if (lookupA s.mappings sid).isSome then
          dmodify s.mappings sid (fun e => { e with last_active := some now })
        else s.mappings) = s.mappings
      rw [he]
      rfl
    · show lookupA (if (lookupA s.reverse_mappings sid).isSome then
          dmodify s.reverse_mappings sid
            (fun e => { e with last_active := some now })
        else s.reverse_mappings) sid = some { e with last_active := some now }
      rw [her]
      show lookupA (dmodify s.reverse_mappings sid
        (fun e => { e with last_active := some now })) sid = _
      rw [lookupA_dmodify_self, her]
      rfl
    · intro l hl
      show lookupA (if (lookupA s.platform_sessions e.platform).isSome then
          dmodify s.platform_sessions e.platform (touchFirst now sid)
        else s.platform_sessions) e.platform = some (touchFirst now sid l)
      rw [hl]
      show lookupA (dmodify s.platform_sessions e.platform
        (touchFirst now sid)) e.platform = _
      rw [lookupA_dmodify_self, hl]
      rfl

/-- Witness for `C4_amended`: touching the `sC4` session by its tagged id at
instant 7 updates the forward entry. -/
theorem C4_amended_witness :
    (update_session_activity (generate_platform_prefixes (["alpha"])) sC4 tC4
        7).ok = true ∧
    lookupA (update_session_activity (generate_platform_prefixes (["alpha"]))
        sC4 tC4 7).state.mappings tC4
      = some { standard_uuid := uC4, platform := "alpha", created_at := 0,
               prefixTag := "01", last_active := some 7 } := by
  have h := (C4_amended (generate_platform_prefixes (["alpha"])) sC4 tC4 7).1
    { standard_uuid := uC4, platform := "alpha", created_at := 0,
      prefixTag := "01", last_active := none } (by decide)
  exact ⟨h.1, h.2.1⟩

/-! ## Claim C5 — canonical/tagged round trip -/

/-- Claim C5: in a well-formed store (the bidirectional invariant maintained
by the mapper's writes), every canonical id X present in the reverse map
round-trips: `get_prefix_uuid` translates X to its tagged id and
`get_standard_uuid` translates that tagged id back to X. -/
theorem C5_round_trip (s : Mappings) (X : String) (e : ReverseEntry)
    (hwf : WellFormed s) (hX : lookupA s.reverse_mappings X = some e) :
    get_prefix_uuid s X = some e.prefix_uuid ∧
    get_standard_uuid s e.prefix_uuid = some X := by
  constructor
  · unfold get_prefix_uuid
    rw [hX]
    rfl
  · rcases hwf X e hX with ⟨e', he', hstd⟩
    unfold get_standard_uuid
    rw [he']
    show some e'.standard_uuid = some X
    rw [hstd]

/-- The concrete store `sC4` satisfies the bidirectional invariant. -/
theorem wellFormed_sC4 : WellFormed sC4 := by
  intro X e hXe
  have hrm : sC4.reverse_mappings
      = [(uC4,
          { prefix_uuid := tC4, platform := "alpha", created_at := 0,
            prefixTag := "01", last_active := none })] := by decide
  rw [hrm, lookupA_cons] at hXe
  dsimp only at hXe
  by_cases hk : uC4 = X
  · rw [if_pos hk] at hXe
    subst hk
    injection hXe with hv
    refine ⟨{ standard_uuid := uC4, platform := "alpha", created_at := 0,
              prefixTag := "01", last_active := none }, ?_, ?_⟩
    · rw [← hv]
      decide
    · rfl
  · rw [if_neg hk, lookupA_nil] at hXe
    exact Option.noConfusion hXe

/-- Witness for `C5_round_trip` at the mapper-generated store `sC4`. -/
theorem C5_witness :
    get_prefix_uuid sC4 uC4 = some tC4 ∧
    get_standard_uuid sC4 tC4 = some uC4 := by
  have h := C5_round_trip sC4 uC4
    { prefix_uuid := tC4, platform := "alpha", created_at := 0,
      prefixTag := "01", last_active := none } wellFormed_sC4 (by decide)
  exact ⟨h.1, h.2⟩

/-! ## Claim C6 — lookup order and the prefix-inference heuristic -/

/-- Claim C6, counterexample: the tagged-shaped id below is absent from both
maps of the empty store, and its *leading two characters* equal `alpha`'s
ordinal `"01"`; the claim demands the heuristic return `alpha`, but the code
compares the *whole* segment before the first dash (`"01aabbcc"`) with the
two-character ordinal and therefore returns nothing. -/
theorem C6_counterexample :
    lookupA emptyMappings.mappings
      ("01aabbcc-0000-4000-8000-000000000000") = none ∧
    lookupA emptyMappings.reverse_mappings
      ("01aabbcc-0000-4000-8000-000000000000") = none ∧
    ("01aabbcc-0000-4000-8000-000000000000" : String).take 2 = "01" ∧
    lookupA (generate_platform_prefixes (["alpha"])) ("alpha") = some ("01") ∧
    get_platform_from_session (generate_platform_prefixes (["alpha"]))
      emptyMappings ("01aabbcc-0000-4000-8000-000000000000") = none := by
  refine ⟨by decide, by decide, by decide, by decide, by decide⟩

/-- Claim C6 (amended): `get_platform_from_session` consults the forward map
first, then the reverse map; for an id absent from both it compares the
ordinal table against the *entire* segment of the id before its first dash
(or the first two characters only when the id has no dash): it returns a
platform whose ordinal equals that extracted string when one exists, and
`none` when no ordinal equals it — so a dashed uuid-shaped id whose pre-dash
segment is longer than two characters never matches. -/
theorem C6_amended (prefixes : List (String × String)) (s : Mappings)
    (sid : String) :
    (∀ e, lookupA s.mappings sid = some e →
      get_platform_from_session prefixes s sid = some e.platform) ∧
    (∀ e, lookupA s.mappings sid = none →
      lookupA s.reverse_mappings sid = some e →
      get_platform_from_session prefixes s sid = some e.platform) ∧
    (lookupA s.mappings sid = none → lookupA s.reverse_mappings sid = none →
      ((∀ p o, (p, o) ∈ prefixes → prefixPart sid = o →
        ∃ q, get_platform_from_session prefixes s sid = some q ∧
          (q, prefixPart sid) ∈ prefixes) ∧
      ((∀ kv ∈ prefixes, kv.2 ≠ prefixPart sid) →
        get_platform_from_session prefixes s sid = none))) := by
  refine ⟨?_, ?_, ?_⟩
  · intro e he
    unfold get_platform_from_session
    rw [he]
  · intro e he her
    unfold get_platform_from_session
    rw [he, her]
  · intro h1 h2
    have hred : get_platform_from_session prefixes s sid
        = (prefixes.find? (fun kp => kp.2 == prefixPart sid)).map
            (fun kp => kp.1) := by
      unfold get_platform_from_session
      rw [h1, h2]
    constructor
    · intro p o hpo heq
      have hex : ∃ x ∈ prefixes, (x.2 == prefixPart sid) = true :=
        ⟨(p, o), hpo, beq_iff_eq.mpr heq.symm⟩
      have hsome : (prefixes.find? (fun kp => kp.2 == prefixPart sid)).isSome :=
        List.find?_isSome.mpr hex
      rcases Option.isSome_iff_exists.mp hsome with ⟨kp, hkp⟩
      have hkpmem := List.mem_of_find?_eq_some hkp
      have hpred := List.find?_some hkp
      have hkp2 : kp.2 = prefixPart sid := beq_iff_eq.mp hpred
      refine ⟨kp.1, ?_, ?_⟩
      · rw [hred, hkp]
        rfl
      · rw [← hkp2]
        exact hkpmem
    · intro hnone
      rw [hred, List.find?_eq_none.mpr ?_]
      · rfl
      · intro x hx
        simp [hnone x hx]

/-- Witness for `C6_amended`: the dashless id `"01"` is absent from both maps
of the empty store and equals `alpha`'s ordinal, and the heuristic finds
`alpha`. -/
theorem C6_amended_witness :
    ∃ q, get_platform_from_session (generate_platform_prefixes (["alpha"]))
        emptyMappings ("01") = some q ∧
      (q, prefixPart ("01")) ∈ generate_platform_prefixes (["alpha"]) :=
  ((C6_amended (generate_platform_prefixes (["alpha"])) emptyMappings
    ("01")).2.2 (by decide) (by decide)).1 ("alpha") ("01") (by decide)
    (by decide)

/-! ## Claim C7 — failure handling of `generate_dual_uuids` -/

/-- Claim C7, counterexample: on a *persistence* failure the canonical-only
fallback does not fire.  `_save_mappings` swallows the I/O error and returns
`False`; `generate_dual_uuids` ignores that result and still returns the
normal dual result, whose tagged id (`tC4`) differs from the canonical id
(`uC4`) — contradicting the claim that every failure during generation or
persistence degrades to `tagged_id == canonical_id`. -/
theorem C7_counterexample :
    (generate_dual_uuids_with_save (generate_platform_prefixes (["alpha"]))
        emptyMappings ("alpha") uC4 0 false true ("fb")).2.2 = false ∧
    (generate_dual_uuids_with_save (generate_platform_prefixes (["alpha"]))
        emptyMappings ("alpha") uC4 0 false true ("fb")).1.prefix_uuid
      = tC4 ∧
    (generate_dual_uuids_with_save (generate_platform_prefixes (["alpha"]))
        emptyMappings ("alpha") uC4 0 false true ("fb")).1.standard_uuid
      = uC4 ∧
    tC4 ≠ uC4 := by
  refine ⟨by decide, by decide, by decide, by decide⟩

/-- Claim C7 (amended): `generate_dual_uuids` never raises to the caller,
and an exception raised in its `try` body degrades to the canonical-only
fallback in which the tagged id, the session id and the canonical id all
equal the fallback uuid; but a *persistence* failure does not trigger that
fallback: `_save_mappings` catches it and returns `False`, the method
ignores that result and still returns the normal dual result — canonical id
`u` and tagged id `ordinal ++ u[2:]` — while the in-memory store keeps the
freshly inserted map entries. -/
theorem C7_amended (prefixes : List (String × String)) (s : Mappings)
    (platform u : String) (now : Int) (fb : String) :
    (∀ sf, (generate_dual_uuids_with_save prefixes s platform u now true sf
        fb).1
      = { standard_uuid := fb, prefix_uuid := fb, session_id := fb }) ∧
    (∀ sf, (generate_dual_uuids_with_save prefixes s platform u now true sf
        fb).2.1 = s) ∧
    ((generate_dual_uuids_with_save prefixes s platform u now false true
        fb).1.standard_uuid = u) ∧
    ((generate_dual_uuids_with_save prefixes s platform u now false true
        fb).1.prefix_uuid
      = ((lookupA prefixes (pyLower platform)).getD ("xx")) ++ u.drop 2) ∧
    ((generate_dual_uuids_with_save prefixes s platform u now false true
        fb).2.2 = false) ∧
    (lookupA (generate_dual_uuids_with_save prefixes s platform u now false
        true fb).2.1.reverse_mappings u
      = some { prefix_uuid :=
                 ((lookupA prefixes (pyLower platform)).getD ("xx"))
                   ++ u.drop 2,
               platform := platform, created_at := now,
               prefixTag := (lookupA prefixes (pyLower platform)).getD ("xx"),
               last_active := none }) ∧
    ((generate_dual_uuids_with_save prefixes s platform u now false false
        fb).2.2 = true) := by
  refine ⟨fun sf => rfl, fun sf => rfl, rfl, rfl, rfl, ?_, rfl⟩
  exact lookupA_dinsert_self s.reverse_mappings u
    { prefix_uuid :=
        ((lookupA prefixes (pyLower platform)).getD ("xx")) ++ u.drop 2,
      platform := platform, created_at := now,
      prefixTag := (lookupA prefixes (pyLower platform)).getD ("xx"),
      last_active := none }

/-! ## Claim C10 — touching an unknown id changes nothing -/

/-- Claim C10: for a session id absent from both the forward and the reverse
map, the canonical-id resolution necessarily fails (even when the prefix
heuristic would produce a platform), so `update_session_activity` returns
`False`, leaves the store untouched and never invokes the persist routine. -/
theorem C10_touch_unknown_id_no_change (prefixes : List (String × String))
    (s : Mappings) (sid : String) (now : Int)
    (hf : lookupA s.mappings sid = none)
    (hr : lookupA s.reverse_mappings sid = none) :
    update_session_activity prefixes s sid now
      = { state := s, ok := false, saved := false } := by
  have hstd : get_standard_uuid s sid = none := by
    unfold get_standard_uuid
    rw [hf, hr]
    rfl
  unfold update_session_activity
  cases hplat : get_platform_from_session prefixes s sid with
  | none => rfl
  | some p =>
    rw [hstd]

/-- Witness for `C10_touch_unknown_id_no_change` at the id `"01"`, which is
absent from the empty store yet matches `alpha`'s ordinal (so the platform
heuristic alone would have succeeded). -/
theorem C10_witness :
    update_session_activity (generate_platform_prefixes (["alpha"]))
        emptyMappings ("01") 3
      = { state := emptyMappings, ok := false, saved := false } :=
  C10_touch_unknown_id_no_change (generate_platform_prefixes (["alpha"]))
    emptyMappings ("01") 3 (by decide) (by decide)

/-! ## Claim C9 — `get_recent_sessions` mutates the store -/

theorem list_map_eq_self {α : Type} (l : List α) (f : α → α)
    (h : l.map f = l) : ∀ x ∈ l, f x = x := by
  induction l with
  | nil => intro x hx; cases hx
  | cons a as ih =>
    rw [List.map_cons] at h
    injection h with h1 h2
    intro x hx
    rcases List.mem_cons.mp hx with h3 | h3
    · rw [h3]
      exact h1
    · exact ih h2 x h3

/-- Claim C9: `get_recent_sessions` mutates the in-memory store — in the
state it leaves behind, every record of every platform's session list has
acquired `platform := some p` for its platform key `p` (the loop writes into
the shared records, not copies), and whenever some record lacked that value
the state after the call differs from the state before it, so the next
persistence call writes the modified document. -/
theorem C9_get_recent_sessions_mutates (s : Mappings) (limit : Nat) :
    (∀ p l, lookupA s.platform_sessions p = some l →
      lookupA (get_recent_sessions s limit).1.platform_sessions p
        = some (l.map (fun r => { r with platform := some p }))) ∧
    (∀ p l, lookupA (get_recent_sessions s limit).1.platform_sessions p
        = some l → ∀ r ∈ l, r.platform = some p) ∧
    (∀ p l r, lookupA s.platform_sessions p = some l → r ∈ l →
      r.platform ≠ some p → (get_recent_sessions s limit).1 ≠ s) := by
  have hmap : ∀ p, lookupA (get_recent_sessions s limit).1.platform_sessions p
      = (lookupA s.platform_sessions p).map
          (fun ls => ls.map (fun r => { r with platform := some p })) := by
    intro p
    exact lookupA_mapVal s.platform_sessions
      (fun k ls => ls.map (fun r => { r with platform := some k })) p
  refine ⟨?_, ?_, ?_⟩
  · intro p l h
    rw [hmap p, h]
    rfl
  · intro p l h r hr
    rw [hmap p] at h
    rcases Option.map_eq_some'.mp h with ⟨l0, hl0, hmapped⟩
    rw [← hmapped] at hr
    rcases List.mem_map.mp hr with ⟨r0, hr0, hre⟩
    rw [← hre]
  · intro p l r h hr hne heq
    have h1 : lookupA (get_recent_sessions s limit).1.platform_sessions p
        = some (l.map (fun r => { r with platform := some p })) := by
      rw [hmap p, h]
      rfl
    rw [heq, h] at h1
    injection h1 with h2
    have h3 := list_map_eq_self l
      (fun r => { r with platform := some p }) h2.symm
    have h4 := h3 r hr
    have h5 : some p = r.platform := congrArg SessionInfo.platform h4
    exact hne h5.symm

/-- The session-list record of `sC4` as created (no `platform` key yet). -/
def rC4 : SessionInfo :=
  { standard_uuid := uC4, prefix_uuid := tC4, created_at := 0,
    last_active := some 0, platform := none }

/-- Witness for `C9_get_recent_sessions_mutates` at the one-session store
`sC4`, whose single record lacks the `platform` key before the call and
carries it after the call. -/
theorem C9_witness :
    lookupA (get_recent_sessions sC4 10).1.platform_sessions ("alpha")
      = some ([{ rC4 with platform := some ("alpha") }]) ∧
    (get_recent_sessions sC4 10).1 ≠ sC4 := by
  have h := C9_get_recent_sessions_mutates sC4 10
  constructor
  · exact h.1 ("alpha") ([rC4]) (by decide)
  · exact h.2.2 ("alpha") ([rC4]) rC4 (by decide) (by decide) (by decide)

/-! ## Claim C8 — retention cleanup: supporting lemmas -/

theorem lookupA_none_of_keys {α : Type} (m : List (String × α)) (p : String)
    (h : ∀ kv ∈ m, kv.1 ≠ p) : lookupA m p = none :=
  (lookupA_eq_none_iff m p).mpr h

theorem lookupA_cleanup_lists (m : List (String × List SessionInfo))
    (keep : SessionInfo → Bool) (p : String) (l : List SessionInfo)
    (hnd : (m.map Prod.fst).Nodup) (h : lookupA m p = some l) :
    lookupA ((m.map (fun pl => (pl.1, pl.2.filter keep))).filter
        (fun pl => !pl.2.isEmpty)) p
      = if (l.filter keep).isEmpty then none else some (l.filter keep) := by
  induction m with
  | nil => cases h
  | cons kv rest ih =>
    have hndc : (kv.1 :: rest.map Prod.fst).Nodup := by
      rw [← List.map_cons]
      exact hnd
    have hnd' : (rest.map Prod.fst).Nodup := (List.nodup_cons.mp hndc).2
    rw [lookupA_cons] at h
    rw [List.map_cons]
    by_cases hk : kv.1 = p
    · rw [if_pos hk] at h
      injection h with h1
      subst h1
      by_cases he : (kv.2.filter keep).isEmpty
      · rw [List.filter_cons_of_neg (by simp [he]), if_pos he]
        apply lookupA_none_of_keys
        intro kv' hkv'
        have hkv'' := List.mem_of_mem_filter hkv'
        rcases List.mem_map.mp hkv'' with ⟨pl, hpl, hpl2⟩
        intro hcontra
        have hp1 : pl.1 = p := by
          rw [← hpl2] at hcontra
          exact hcontra
        have hmem : kv.1 ∈ rest.map Prod.fst := by
          rw [hk, ← hp1]
          exact List.mem_map_of_mem Prod.fst hpl
        exact (List.nodup_cons.mp hndc).1 hmem
      · rw [List.filter_cons_of_pos (by simp [he]), lookupA_cons2, if_pos hk,
          if_neg he]
    · rw [if_neg hk] at h
      by_cases he : (kv.2.filter keep).isEmpty
      · rw [List.filter_cons_of_neg (by simp [he])]
        exact ih hnd' h
      · rw [List.filter_cons_of_pos (by simp [he]), lookupA_cons2, if_neg hk]
        exact ih hnd' h

theorem length_sub_filter {α : Type} (l : List α) (p : α → Bool) :
    l.length - (l.filter p).length = (l.filter (fun a => !p a)).length := by
  induction l with
  | nil => rfl
  | cons a as ih =>
    by_cases h : p a = true
    · rw [List.filter_cons_of_pos h, List.filter_cons_of_neg (by simp [h])]
      simp only [List.length_cons]
      omega
    · have hf : p a = false := Bool.eq_false_iff.mpr h
      rw [List.filter_cons_of_neg h, List.filter_cons_of_pos (by simp [hf])]
      simp only [List.length_cons]
      have hle := List.length_filter_le p as
      omega

/-! ## Claim C8 — retention cleanup -/

/-- Claim C8: for any store with distinct platform keys,
(1) a session-list record survives `cleanup_old_sessions` iff its effective
activity timestamp (`last_active`, or else `created_at`) is at least
`now - retention`, i.e. it is removed iff that timestamp is older than the
cutoff; (2) the returned count is the number of records removed; (3) with
retention 0 days (and all activity strictly in the past, every reverse entry
being the partner of a forward entry) every session record and every
forward/reverse map entry is removed and the count is the total number of
records; (4) with retention 999999 days (and all activity inside that
window, no platform list empty) nothing is removed, the store is unchanged
and the count is 0. -/
theorem C8_cleanup (s : Mappings) (now : Int) (days : Nat)
    (hnd : (s.platform_sessions.map Prod.fst).Nodup) :
    (∀ p l r, lookupA s.platform_sessions p = some l → r ∈ l →
      ((∃ l', lookupA (cleanup_old_sessions s now
            days).state.platform_sessions p = some l' ∧ r ∈ l') ↔
        cleanupCutoff now days ≤ effTime r.last_active r.created_at)) ∧
    ((cleanup_old_sessions s now days).count
      = (s.platform_sessions.map (fun pl => (pl.2.filter (fun r =>
          !(decide (cleanupCutoff now days ≤ effTime r.last_active
              r.created_at)))).length)).sum) ∧
    (days = 0 →
      (∀ pl ∈ s.platform_sessions, ∀ r ∈ pl.2,
        effTime r.last_active r.created_at < now) →
      (∀ kv ∈ s.mappings, effTime kv.2.last_active kv.2.created_at < now) →
      (∀ kv ∈ s.reverse_mappings, ∃ fv ∈ s.mappings,
        fv.2.standard_uuid = kv.1) →
      ((cleanup_old_sessions s now days).state.platform_sessions = [] ∧
       (cleanup_old_sessions s now days).state.mappings = [] ∧
       (cleanup_old_sessions s now days).state.reverse_mappings = [] ∧
       (cleanup_old_sessions s now days).count
         = (s.platform_sessions.map (fun pl => pl.2.length)).sum)) ∧
    (days = 999999 →
      (∀ pl ∈ s.platform_sessions, ∀ r ∈ pl.2,
        cleanupCutoff now days ≤ effTime r.last_active r.created_at) →
      (∀ kv ∈ s.mappings,
        cleanupCutoff now days ≤ effTime kv.2.last_active kv.2.created_at) →
      (∀ pl ∈ s.platform_sessions, pl.2 ≠ []) →
      ((cleanup_old_sessions s now days).state = s ∧
       (cleanup_old_sessions s now days).count = 0)) := by
  have hstate : (cleanup_old_sessions s now days).state.platform_sessions
      = (s.platform_sessions.map (fun pl => (pl.1, pl.2.filter
          (fun r => decide (cleanupCutoff now days ≤
            effTime r.last_active r.created_at))))).filter
          (fun pl => !pl.2.isEmpty) := rfl
  refine ⟨?_, ?_, ?_, ?_⟩
  · intro p l r hl hr
    have hlk := lookupA_cleanup_lists s.platform_sessions
      (fun r => decide (cleanupCutoff now days ≤ effTime r.last_active
        r.created_at)) p l hnd hl
    constructor
    · rintro ⟨l', hl', hrl'⟩
      rw [hstate, hlk] at hl'
      by_cases he : (l.filter (fun r => decide (cleanupCutoff now days ≤
          effTime r.last_active r.created_at))).isEmpty
      · rw [if_pos he] at hl'
        cases hl'
      · rw [if_neg he] at hl'
        injection hl' with h1
        rw [← h1] at hrl'
        exact of_decide_eq_true (List.mem_filter.mp hrl').2
    · intro hkeep
      have hrf : r ∈ l.filter (fun r => decide (cleanupCutoff now days ≤
          effTime r.last_active r.created_at)) :=
        List.mem_filter.mpr ⟨hr, decide_eq_true hkeep⟩
      have hne : ¬ ((l.filter (fun r => decide (cleanupCutoff now days ≤
          effTime r.last_active r.created_at))).isEmpty = true) := by
        intro hemp
        rw [List.isEmpty_iff] at hemp
        rw [hemp] at hrf
        cases hrf
      refine ⟨l.filter (fun r => decide (cleanupCutoff now days ≤
        effTime r.last_active r.created_at)), ?_, hrf⟩
      rw [hstate, hlk, if_neg hne]
  · show (s.platform_sessions.map (fun pl => pl.2.length -
        (pl.2.filter (fun r => decide (cleanupCutoff now days ≤
          effTime r.last_active r.created_at))).length)).sum = _
    refine congrArg List.sum (List.map_congr_left ?_)
    intro pl _
    exact length_sub_filter pl.2 (fun r => decide (cleanupCutoff now days ≤
      effTime r.last_active r.created_at))
  · intro hd h1 h2 h3
    subst hd
    have hc0 : cleanupCutoff now 0 = now := by
      simp [cleanupCutoff]
    have hfnil : ∀ pl ∈ s.platform_sessions,
        pl.2.filter (fun r => decide (cleanupCutoff now 0 ≤
          effTime r.last_active r.created_at)) = [] := by
      intro pl hpl
      apply List.filter_eq_nil_iff.mpr
      intro r hrr hdec
      have hge := of_decide_eq_true hdec
      rw [hc0] at hge
      exact absurd hge (not_le.mpr (h1 pl hpl r hrr))
    refine ⟨?_, ?_, ?_, ?_⟩
    · rw [hstate]
      apply List.filter_eq_nil_iff.mpr
      intro pl' hpl'
      rcases List.mem_map.mp hpl' with ⟨pl, hpl, hpl2⟩
      rw [← hpl2]
      dsimp only
      rw [hfnil pl hpl]
      simp
    · show (s.mappings.filter (fun kv => decide (cleanupCutoff now 0 ≤
          effTime kv.2.last_active kv.2.created_at))) = []
      apply List.filter_eq_nil_iff.mpr
      intro kv hkv hdec
      have hge := of_decide_eq_true hdec
      rw [hc0] at hge
      exact absurd hge (not_le.mpr (h2 kv hkv))
    · show (s.reverse_mappings.filter (fun kv =>
          !((s.mappings.filter (fun kv2 => !(decide (cleanupCutoff now 0 ≤
              effTime kv2.2.last_active kv2.2.created_at)))).any
            (fun tv => tv.2.standard_uuid == kv.1)))) = []
      apply List.filter_eq_nil_iff.mpr
      intro kv hkv
      rcases h3 kv hkv with ⟨fv, hfv, hstd⟩
      have hany : ((s.mappings.filter (fun kv2 => !(decide (cleanupCutoff now
          0 ≤ effTime kv2.2.last_active kv2.2.created_at)))).any
            (fun tv => tv.2.standard_uuid == kv.1)) = true := by
        apply List.any_eq_true.mpr
        refine ⟨fv, ?_, beq_iff_eq.mpr hstd⟩
        apply List.mem_filter.mpr
        refine ⟨hfv, ?_⟩
        have hlt := h2 fv hfv
        rw [← hc0] at hlt
        rw [decide_eq_false (not_le.mpr hlt)]
        rfl
      rw [hany]
      simp
    · show (s.platform_sessions.map (fun pl => pl.2.length -
          (pl.2.filter (fun r => decide (cleanupCutoff now 0 ≤
            effTime r.last_active r.created_at))).length)).sum
        = (s.platform_sessions.map (fun pl => pl.2.length)).sum
      refine congrArg List.sum (List.map_congr_left ?_)
      intro pl hpl
      rw [hfnil pl hpl]
      simp
  · intro hd h1 h2 h3
    subst hd
    have hkeepall : ∀ pl ∈ s.platform_sessions,
        pl.2.filter (fun r => decide (cleanupCutoff now 999999 ≤
          effTime r.last_active r.created_at)) = pl.2 := by
      intro pl hpl
      apply List.filter_eq_self.mpr
      intro r hrr
      exact decide_eq_true (h1 pl hpl r hrr)
    have hremoved : (s.mappings.filter (fun kv2 => !(decide (cleanupCutoff now
        999999 ≤ effTime kv2.2.last_active kv2.2.created_at)))) = [] := by
      apply List.filter_eq_nil_iff.mpr
      intro kv hkv
      rw [decide_eq_true (h2 kv hkv)]
      simp
    have e1 : (cleanup_old_sessions s now 999999).state.mappings
        = s.mappings := by
      show (s.mappings.filter (fun kv => decide (cleanupCutoff now 999999 ≤
          effTime kv.2.last_active kv.2.created_at))) = s.mappings
      apply List.filter_eq_self.mpr
      intro kv hkv
      exact decide_eq_true (h2 kv hkv)
    have e2 : (cleanup_old_sessions s now 999999).state.reverse_mappings
        = s.reverse_mappings := by
      show (s.reverse_mappings.filter (fun kv =>
          !((s.mappings.filter (fun kv2 => !(decide (cleanupCutoff now 999999 ≤
            effTime kv2.2.last_active kv2.2.created_at)))).any
            (fun tv => tv.2.standard_uuid == kv.1)))) = s.reverse_mappings
      simp only [hremoved]
      apply List.filter_eq_self.mpr
      intro kv hkv
      rfl
    have e3 : (cleanup_old_sessions s now 999999).state.platform_sessions
        = s.platform_sessions := by
      rw [hstate]
      have hcong : ∀ pl ∈ s.platform_sessions, (pl.1, pl.2.filter
          (fun r => decide (cleanupCutoff now 999999 ≤ effTime r.last_active
            r.created_at))) = pl := by
        intro pl hpl
        rw [hkeepall pl hpl]
      rw [List.map_congr_left hcong, List.map_id']
      apply List.filter_eq_self.mpr
      intro pl hpl
      cases hemp : pl.2.isEmpty
      · rfl
      · exact absurd (List.isEmpty_iff.mp hemp) (h3 pl hpl)
    constructor
    · calc (cleanup_old_sessions s now 999999).state
          = { mappings := s.mappings, reverse_mappings := s.reverse_mappings,
              platform_sessions := s.platform_sessions } := by
            rw [← e1, ← e2, ← e3]
        _ = s := rfl
    · show (s.platform_sessions.map (fun pl => pl.2.length -
          (pl.2.filter (fun r => decide (cleanupCutoff now 999999 ≤
            effTime r.last_active r.created_at))).length)).sum = 0
      apply List.sum_eq_zero
      intro x hx
      rcases List.mem_map.mp hx with ⟨pl, hpl, hplx⟩
      rw [← hplx, hkeepall pl hpl]
      omega

/-- Witness for `C8_cleanup` at the one-session store `sC4`: retention 0 at
instant 5 empties everything and returns 1; retention 999999 removes nothing
and returns 0. -/
theorem C8_witness :
    (cleanup_old_sessions sC4 5 0).state.platform_sessions = [] ∧
    (cleanup_old_sessions sC4 5 0).state.mappings = [] ∧
    (cleanup_old_sessions sC4 5 0).state.reverse_mappings = [] ∧
    (cleanup_old_sessions sC4 5 0).count
      = (sC4.platform_sessions.map (fun pl => pl.2.length)).sum ∧
    (cleanup_old_sessions sC4 5 999999).state = sC4 ∧
    (cleanup_old_sessions sC4 5 999999).count = 0 := by
  have h0 := (C8_cleanup sC4 5 0 (by decide)).2.2.1 rfl (by decide)
    (by decide) (by decide)
  have h9 := (C8_cleanup sC4 5 999999 (by decide)).2.2.2 rfl (by decide)
    (by decide) (by decide)
  exact ⟨h0.1, h0.2.1, h0.2.2.1, h0.2.2.2, h9.1, h9.2⟩

end CCLauncher
